import Mathlib

/-!
Shallow embedding of `BMC/statdesc.py` (statdesc.py v.1 2015/07/09).

The module computes, per data column: mean and unbiased standard deviation,
a 95% confidence interval for the mean, extrema, quartiles, a Shapiro-Wilk
normality test, and one cross-column equality-of-variances test (Bartlett's
or Levene's).  Floating-point values are modelled as exact rationals; IEEE
NaN is modelled as `none` in `Option ℚ`.  The results of the external
statistical library routines (`np.sqrt`, `scipy.stats.t._pdf`,
`scipy.stats.shapiro`, `scipy.stats.bartlett`, `scipy.stats.levene`) are
abstract parameters bundled in `StatsLib`: the embedding records exactly
which routine the code applies and to which arguments.  Plotting is absent
(`plt = None` in the source's failure branch of the matplotlib import), so
only the numeric pipeline and the `statprint` label accesses are modelled.
-/

namespace BMC

/-- Float value with NaN: `none` models IEEE NaN, `some q` a finite value. -/
abbrev Val := Option ℚ

/-- Numeric results of the external library routines used by `statdesc.py`.
`sqrtQ` models `np.sqrt`, `tPdf q df` models `scipy.stats.t._pdf(q, df)`
(the probability density of Student's t with `df` degrees of freedom
evaluated at `q`), `shapiro` models `scipy.stats.shapiro` returning
(W statistic, p-value), `bartlett` models `scipy.stats.bartlett(*x)` and
`levene` models `scipy.stats.levene(*x, center='median')`, each returning
(statistic, p-value). -/
structure StatsLib where
  sqrtQ : ℚ → ℚ
  tPdf : ℚ → ℕ → ℚ
  shapiro : List ℚ → ℚ × ℚ
  bartlett : List (List ℚ) → ℚ × ℚ
  levene : List (List ℚ) → ℚ × ℚ

/-- Per-column profile: the rows of the five per-column output arrays
`m_sd`, `ci`, `min_max`, `quartiles`, `normality` (source lines 110-114,
initialised to NaN). -/
structure Profile where
  m_sd : Val × Val
  ci : Val × Val
  min_max : Val × Val
  quartiles : Val × Val × Val
  normality : Val × Val
  deriving DecidableEq

/-- The all-NaN profile row, as initialised at source lines 110-114 and
left untouched for a skipped column. -/
def emptyProfile : Profile :=
  { m_sd := (none, none), ci := (none, none), min_max := (none, none),
    quartiles := (none, none, none), normality := (none, none) }

/-- Observable events of a call: the skip notice printed at source line 127
and which equality-of-variances routine was invoked (lines 163 and 165). -/
inductive Event where
  | skip (i : ℕ)
  | bartlettRun
  | leveneRun
  deriving DecidableEq

/-- CleanColumn: `data[~np.isnan(data[:, i]), i]` (source line 123), the
column with NaN entries removed. -/
def cleanColumn (col : List Val) : List ℚ :=
  col.filterMap id

/-- Missing-sentinel replacement, `data[data == missing] = np.NaN` (source
lines 106-108): when `missing` is a number (not NaN), every entry equal to
it becomes NaN; when `missing` is the string `'NaN'` or a NaN float
(modelled as `none`) the data is left as is.  Because `np.asarray` returns
the caller's ndarray itself (no copy) the result is also the caller-visible
array after the call. -/
def replaceSentinel (missing : Option ℚ) (cols : List (List Val)) : List (List Val) :=
  match missing with
  | none => cols
  | some m => cols.map (fun col => col.map (fun v => if v = some m then none else v))

/-- Sorted insertion, auxiliary for `sortQ`. -/
def insertQ (a : ℚ) : List ℚ → List ℚ
  | [] => [a]
  | b :: r => if a ≤ b then a :: b :: r else b :: insertQ a r

/-- Insertion sort on rationals (the order of values that `np.percentile`
operates on). -/
def sortQ : List ℚ → List ℚ
  | [] => []
  | a :: r => insertQ a (sortQ r)

/-- Floor of a nonnegative rational as a natural number (the index
truncation inside `np.percentile`). -/
def floorNN (q : ℚ) : ℕ :=
  q.num.toNat / q.den

/-- Linear-interpolation percentile, the semantics of `np.percentile(x, q)`
(and `np.median x = np.percentile x 50`): with the sorted values
`a_0 ≤ … ≤ a_(n-1)` and `h = q·(n-1)/100`, the result is
`a_⌊h⌋ + (h - ⌊h⌋)·(a_(⌊h⌋+1) - a_⌊h⌋)`; NaN on an empty list. -/
def percentileQ (x : List ℚ) (q : ℚ) : Val :=
  match sortQ x with
  | [] => none
  | a :: r =>
    let ys := a :: r
    let n := ys.length
    let h : ℚ := q * ((n : ℚ) - 1) / 100
    let i : ℕ := floorNN h
    let lo := ys.getD i a
    let hi := ys.getD (i + 1) lo
    some (lo + (h - (i : ℚ)) * (hi - lo))

/-- Minimum of a column, `x.min()`: NaN on empty input. -/
def minQ : List ℚ → Val
  | [] => none
  | a :: r => some (r.foldl min a)

/-- Maximum of a column, `x.max()`: NaN on empty input. -/
def maxQ : List ℚ → Val
  | [] => none
  | a :: r => some (r.foldl max a)

/-- Sum of squared deviations from the mean, the numerator of
`np.std(x, ddof=1) ^ 2`. -/
def ssd (x : List ℚ) : ℚ :=
  (x.map (fun v => (v - x.sum / (x.length : ℚ)) ^ 2)).sum

/-- Unbiased standard deviation, `np.std(x, ddof=1)` (source line 185):
`sqrt(ssd x / (n - 1))`.  For `n = 1` the float computation is `0.0/0`,
which is NaN (and for `n = 0` the mean is already NaN), so the result is
`none` whenever `n ≤ 1`. -/
def stdQ (lib : StatsLib) (x : List ℚ) : Val :=
  if x.length ≤ 1 then none
  else some (lib.sqrtQ (ssd x / ((x.length : ℚ) - 1)))

/-- The `summary` function (source lines 181-204): mean and unbiased
standard deviation; for `n > 1` the interval
`t._pdf(.975, n-1) * sd / sqrt(n) * [-1, 1] + mean` (source lines 188-190,
note the source applies the t density `_pdf`, not a quantile); extrema;
median and 25th/75th percentiles; for `n > 2` the Shapiro-Wilk pair
(source lines 198-199).  Fields whose guard fails stay NaN. -/
def summary (lib : StatsLib) (x : List ℚ) : Profile :=
  let n : ℕ := x.length
  let mv : ℚ := x.sum / (n : ℚ)
  let sd : Val := stdQ lib x
  let sv : ℚ := sd.getD 0
  let t : ℚ := lib.tPdf (975 / 1000) (n - 1)
  { m_sd := (if n = 0 then none else some mv, sd)
    ci :=
      if 1 < n then
        (some (mv - t * sv / lib.sqrtQ (n : ℚ)), some (mv + t * sv / lib.sqrtQ (n : ℚ)))
      else (none, none)
    min_max := (minQ x, maxQ x)
    quartiles := (percentileQ x 50, percentileQ x 25, percentileQ x 75)
    normality :=
      if 2 < n then (some (lib.shapiro x).1, some (lib.shapiro x).2)
      else (none, none) }

/-- Result of the per-column loop (source lines 120-145): the profile rows,
the label list after the in-place label synthesis, the emitted skip
notices, and the counter `min_len` of columns with more than 2 clean
values. -/
structure LoopOut where
  profiles : List Profile
  labels : List String
  events : List Event
  minLen : ℕ
  deriving DecidableEq

/-- Label handling for column `i` (source lines 133-139): a non-empty
(truthy) existing label is kept; otherwise `str(i+1)` overwrites position
`i` when the list is long enough and is appended at the end otherwise. -/
def labelUpdate (labels : List String) (i : ℕ) : List String :=
  if i < labels.length then
    if labels.getD i ("") ≠ ("") then labels
    else labels.set i (toString (i + 1))
  else labels ++ [toString (i + 1)]

/-- The per-column loop (source lines 120-145), processing the columns from
index `i` on: an empty CleanColumn prints the skip notice and `continue`s
(lines 126-128), leaving its profile row NaN and skipping the label
handling; otherwise `min_len` is bumped for more than 2 clean values
(lines 130-131), the label is synthesised (lines 133-139) and `summary`
fills the profile row (line 141). -/
def processCols (lib : StatsLib) : List (List Val) → ℕ → List String → LoopOut
  | [], _, labels => { profiles := [], labels := labels, events := [], minLen := 0 }
  | col :: rest, i, labels =>
    let x := cleanColumn col
    if x = [] then
      let r := processCols lib rest (i + 1) labels
      { profiles := emptyProfile :: r.profiles, labels := r.labels,
        events := Event.skip i :: r.events, minLen := r.minLen }
    else
      let r := processCols lib rest (i + 1) (labelUpdate labels i)
      { profiles := summary lib x :: r.profiles, labels := r.labels,
        events := r.events,
        minLen := r.minLen + (if 2 < x.length then 1 else 0) }

/-- NaN-aware comparison used by `np.all(normality[:, 1] > .05)` (source
line 162): a NaN p-value never compares greater than the threshold. -/
def nanGt (a : Val) (c : ℚ) : Bool :=
  match a with
  | none => false
  | some v => decide (c < v)

/-- The aggregate normality condition `np.all(normality[:, 1] > .05)`
(source line 162), ranging over the p-value column of all profile rows,
including the NaN rows of skipped and short columns. -/
def allPvalsGt (profiles : List Profile) : Bool :=
  (profiles.map (fun p => p.normality.2)).all (fun p => nanGt p (1 / 20))

/-- Number of non-empty CleanColumns: the length of the list `x` after the
empty arrays are removed (source lines 148-153). -/
def nonemptyCount (cols : List (List Val)) : ℕ :=
  (cols.map cleanColumn).countP (fun c => decide (c ≠ []))

/-- Number of columns with more than 2 clean values: the final value of the
counter `min_len` (source lines 129-131). -/
def eligibleCount (cols : List (List Val)) : ℕ :=
  (cols.map cleanColumn).countP (fun c => decide (2 < c.length))

/-- Caller-observable result of a `statdesc` call: the five per-column
profile arrays (bundled row-wise as `profiles`), the equality-of-variances
pair `eq_var` (`none` = the NaN pair it is initialised to at line 115),
the caller's data array after the call (`np.asarray` aliases an ndarray
input, so the sentinel replacement at line 108 is caller-visible), the
label list after the in-place synthesis, the emitted events, and whether
the final `statprint` finishes: `statprint` reads `labels[i]` for every
`i < ncol` (source lines 357-382), which raises IndexError when the label
list is shorter than the number of columns. -/
structure Result where
  profiles : List Profile
  eq_var : Option (ℚ × ℚ)
  dataOut : List (List Val)
  labelsOut : List String
  events : List Event
  completes : Bool
  deriving DecidableEq

/-- The equality-of-variances step (source lines 156-165): when
`len(x) > 1 and min_len > 1`, Bartlett's test is applied to the non-empty
clean columns if `np.all(normality[:, 1] > .05)` and Levene's test
otherwise; when the guard fails `eq_var` stays NaN and no test runs.
Returns the `eq_var` value and the test-invocation event. -/
def varianceTest (lib : StatsLib) (xs : List (List ℚ)) (minLen : ℕ)
    (profiles : List Profile) : Option (ℚ × ℚ) × List Event :=
  if 1 < xs.length ∧ 1 < minLen then
    if allPvalsGt profiles then (some (lib.bartlett xs), [Event.bartlettRun])
    else (some (lib.levene xs), [Event.leveneRun])
  else (none, [])

/-- The `statdesc` entry point (source lines 19-178) on a column-oriented
dataset (`cols0` lists the columns of the 2D array; a 1D input is a single
column).  `missing` is the missing-value specifier (`none` for the default
`'NaN'`, `some m` for a numeric sentinel), `labels` the caller's label
list.  The `alpha` and `show` parameters only affect plotting and printed
text, never the returned numbers, and plotting is absent (`plt = None`),
so they are not modelled. -/
def statdesc (lib : StatsLib) (cols0 : List (List Val)) (missing : Option ℚ)
    (labels : List String) : Result :=
  let cols := replaceSentinel missing cols0
  let r := processCols lib cols 0 labels
  let xs := (cols.map cleanColumn).filter (fun c => decide (c ≠ []))
  let v := varianceTest lib xs r.minLen r.profiles
  { profiles := r.profiles, eq_var := v.1, dataOut := cols, labelsOut := r.labels,
    events := r.events ++ v.2, completes := decide (cols.length ≤ r.labels.length) }

/-- Model of two successive `statdesc` calls that both omit the `labels`
argument.  In Python the default `labels=[]` (source line 19) is a single
list object created once at function definition time; the body only ever
mutates it in place (`labels[i] = str(i+1)` and `labels.append(str(i+1))`,
lines 137 and 139, never a rebinding), so the second call receives the
list exactly as the first call left it. -/
def twoCallsNoLabels (lib : StatsLib) (d1 d2 : List (List Val)) : Result × Result :=
  let r1 := statdesc lib d1 none []
  let r2 := statdesc lib d2 none r1.labelsOut
  (r1, r2)

/-- A concrete instantiation of the external library routines, used to
evaluate the embedding on concrete inputs. -/
def lib0 : StatsLib :=
  { sqrtQ := fun q => q
    tPdf := fun _ _ => 1 / 10
    shapiro := fun _ => (1, 1 / 2)
    bartlett := fun _ => (1, 1)
    levene := fun _ => (2, 1 / 4) }

unseal Rat.add Rat.mul Rat.inv Rat.sub

example : cleanColumn [some 1, none, some 2] = [1, 2] := by decide

example : percentileQ [1, 2, 3] 50 = some 2 := by decide

example : percentileQ [1, 2, 3] 25 = some (3 / 2) := by decide

example : percentileQ [1, 2, 3] 75 = some (5 / 2) := by decide

example :
    (statdesc lib0 [[some 1, some 2, some 3], [some 4, some 5, some 7]] none
      []).eq_var = some (1, 1) := by decide

example :
    (statdesc lib0 [[none, none], [some 1, some 2]] none []).labelsOut =
      [("2" : String)] := by decide

lemma replaceSentinel_length (missing : Option ℚ) (cols : List (List Val)) :
    (replaceSentinel missing cols).length = cols.length := by
  cases missing <;> simp [replaceSentinel]

lemma processCols_profiles (lib : StatsLib) :
    ∀ (cols : List (List Val)) (i : ℕ) (labels : List String),
      (processCols lib cols i labels).profiles =
        cols.map (fun col =>
          if cleanColumn col = [] then emptyProfile else summary lib (cleanColumn col))
  | [], _, _ => rfl
  | col :: rest, i, labels => by
    by_cases h : cleanColumn col = [] <;>
      simp [processCols, h, processCols_profiles lib rest]

lemma statdesc_profiles (lib : StatsLib) (cols0 : List (List Val)) (missing : Option ℚ)
    (labels : List String) :
    (statdesc lib cols0 missing labels).profiles =
      (replaceSentinel missing cols0).map
        (fun col =>
          if cleanColumn col = [] then emptyProfile
          else summary lib (cleanColumn col)) := by
  simp [statdesc, processCols_profiles]

/-- C8: for a CleanColumn holding exactly one value `v`, the standard
deviation (`np.std` with `ddof=1` divides by zero), both confidence-interval
bounds (the `n > 1` guard fails) and both normality fields (the `n > 2`
guard fails) are the NaN marker, while mean, minimum, maximum, median and
both quartiles all equal `v`. -/
theorem c8_singleton_column (lib : StatsLib) (v : ℚ) :
    summary lib [v] =
      { m_sd := (some v, none), ci := (none, none), min_max := (some v, some v),
        quartiles := (some v, some v, some v), normality := (none, none) } := by
  simp [summary, stdQ, percentileQ, sortQ, insertQ, minQ, maxQ, floorNN]

/-- C7: the per-column output arrays (whose rows are bundled here as
`profiles`) have exactly one row per input column, and the row of a column
whose CleanColumn is empty (an entirely missing column, skipped at source
lines 126-128) holds the NaN marker in every field, exactly as initialised
at source lines 110-114. -/
theorem c7_per_column_rows (lib : StatsLib) (cols0 : List (List Val))
    (missing : Option ℚ) (labels : List String) :
    (statdesc lib cols0 missing labels).profiles.length = cols0.length ∧
    ∀ i, i < cols0.length →
      cleanColumn ((replaceSentinel missing cols0).getD i []) = [] →
      (statdesc lib cols0 missing labels).profiles[i]? =
        some { m_sd := (none, none), ci := (none, none), min_max := (none, none),
               quartiles := (none, none, none), normality := (none, none) } := by
  refine ⟨by simp [statdesc_profiles, replaceSentinel_length], ?_⟩
  intro i hi hclean
  have hlen : i < (replaceSentinel missing cols0).length := by
    rw [replaceSentinel_length]; exact hi
  rw [statdesc_profiles, List.getElem?_map]
  cases hx : (replaceSentinel missing cols0)[i]? with
  | none =>
    rw [List.getElem?_eq_none_iff] at hx
    omega
  | some col =>
    have hcol : (replaceSentinel missing cols0).getD i [] = col := by
      rw [List.getD_eq_getElem?_getD, hx]; rfl
    rw [hcol] at hclean
    simp [hclean, emptyProfile]

lemma processCols_minLen (lib : StatsLib) :
    ∀ (cols : List (List Val)) (i : ℕ) (labels : List String),
      (processCols lib cols i labels).minLen = eligibleCount cols
  | [], _, _ => rfl
  | col :: rest, i, labels => by
    by_cases h : cleanColumn col = []
    · have h2 : ¬ (2 < (cleanColumn col).length) := by simp [h]
      simp [processCols, h, eligibleCount, List.countP_cons,
        processCols_minLen lib rest, h2]
    · simp [processCols, h, eligibleCount, List.countP_cons,
        processCols_minLen lib rest]

lemma processCols_events_skipOnly (lib : StatsLib) :
    ∀ (cols : List (List Val)) (i : ℕ) (labels : List String) (e : Event),
      e ∈ (processCols lib cols i labels).events → ∃ j, e = Event.skip j
  | [], _, _, e => by simp [processCols]
  | col :: rest, i, labels, e => by
    by_cases h : cleanColumn col = []
    · simp only [processCols, h, if_pos, List.mem_cons]
      rintro (rfl | he)
      · exact ⟨i, rfl⟩
      · exact processCols_events_skipOnly lib rest (i + 1) labels e he
    · intro he
      have hin : e ∈ (processCols lib rest (i + 1) (labelUpdate labels i)).events := by
        simpa [processCols, h] using he
      exact processCols_events_skipOnly lib rest (i + 1) (labelUpdate labels i) e hin

/-- The list `x` after the empty clean columns are removed (source lines
148-153), as a function of the inputs. -/
def xsOf (missing : Option ℚ) (cols0 : List (List Val)) : List (List ℚ) :=
  ((replaceSentinel missing cols0).map cleanColumn).filter (fun c => decide (c ≠ []))

lemma xsOf_length (missing : Option ℚ) (cols0 : List (List Val)) :
    (xsOf missing cols0).length = nonemptyCount (replaceSentinel missing cols0) := by
  rw [xsOf, nonemptyCount, ← List.countP_eq_length_filter]

lemma statdesc_dataOut (lib : StatsLib) (cols0 : List (List Val)) (missing : Option ℚ)
    (labels : List String) :
    (statdesc lib cols0 missing labels).dataOut = replaceSentinel missing cols0 := rfl

lemma statdesc_labelsOut (lib : StatsLib) (cols0 : List (List Val)) (missing : Option ℚ)
    (labels : List String) :
    (statdesc lib cols0 missing labels).labelsOut =
      (processCols lib (replaceSentinel missing cols0) 0 labels).labels := rfl

lemma statdesc_eq_var (lib : StatsLib) (cols0 : List (List Val)) (missing : Option ℚ)
    (labels : List String) :
    (statdesc lib cols0 missing labels).eq_var =
      (varianceTest lib (xsOf missing cols0)
        (eligibleCount (replaceSentinel missing cols0))
        (processCols lib (replaceSentinel missing cols0) 0 labels).profiles).1 := by
  simp [statdesc, xsOf, processCols_minLen]

lemma statdesc_events (lib : StatsLib) (cols0 : List (List Val)) (missing : Option ℚ)
    (labels : List String) :
    (statdesc lib cols0 missing labels).events =
      (processCols lib (replaceSentinel missing cols0) 0 labels).events ++
      (varianceTest lib (xsOf missing cols0)
        (eligibleCount (replaceSentinel missing cols0))
        (processCols lib (replaceSentinel missing cols0) 0 labels).profiles).2 := by
  simp [statdesc, xsOf, processCols_minLen]

lemma varianceTest_cond (lib : StatsLib) (xs : List (List ℚ)) (minLen : ℕ)
    (profiles : List Profile) (h : 1 < xs.length ∧ 1 < minLen) :
    varianceTest lib xs minLen profiles =
      (if allPvalsGt profiles then (some (lib.bartlett xs), [Event.bartlettRun])
       else (some (lib.levene xs), [Event.leveneRun])) := by
  simp [varianceTest, h]

lemma varianceTest_not_cond (lib : StatsLib) (xs : List (List ℚ)) (minLen : ℕ)
    (profiles : List Profile) (h : ¬ (1 < xs.length ∧ 1 < minLen)) :
    varianceTest lib xs minLen profiles = (none, []) := by
  simp [varianceTest, h]

lemma statdesc_profiles_raw (lib : StatsLib) (cols0 : List (List Val))
    (missing : Option ℚ) (labels : List String) :
    (statdesc lib cols0 missing labels).profiles =
      (processCols lib (replaceSentinel missing cols0) 0 labels).profiles := rfl

lemma processCols_no_test_events (lib : StatsLib) (cols : List (List Val)) (i : ℕ)
    (labels : List String) :
    Event.bartlettRun ∉ (processCols lib cols i labels).events ∧
    Event.leveneRun ∉ (processCols lib cols i labels).events := by
  constructor <;> intro hmem <;>
    obtain ⟨j, hj⟩ := processCols_events_skipOnly lib cols i labels _ hmem <;>
    cases hj

lemma run_of_eq_var_ne_none (lib : StatsLib) (cols0 : List (List Val))
    (missing : Option ℚ) (labels : List String)
    (h : (statdesc lib cols0 missing labels).eq_var ≠ none) :
    1 < (xsOf missing cols0).length ∧
    1 < eligibleCount (replaceSentinel missing cols0) := by
  by_contra hc
  rw [statdesc_eq_var, varianceTest_not_cond lib _ _ _ hc] at h
  exact h rfl

lemma statdesc_bartlett_case (lib : StatsLib) (cols0 : List (List Val))
    (missing : Option ℚ) (labels : List String)
    (hcond : 1 < (xsOf missing cols0).length ∧
      1 < eligibleCount (replaceSentinel missing cols0))
    (hp : allPvalsGt (processCols lib (replaceSentinel missing cols0) 0 labels).profiles
      = true) :
    (statdesc lib cols0 missing labels).eq_var = some (lib.bartlett (xsOf missing cols0)) ∧
    (statdesc lib cols0 missing labels).events =
      (processCols lib (replaceSentinel missing cols0) 0 labels).events ++
        [Event.bartlettRun] := by
  rw [statdesc_eq_var, statdesc_events, varianceTest_cond lib _ _ _ hcond]
  simp [hp]

lemma statdesc_levene_case (lib : StatsLib) (cols0 : List (List Val))
    (missing : Option ℚ) (labels : List String)
    (hcond : 1 < (xsOf missing cols0).length ∧
      1 < eligibleCount (replaceSentinel missing cols0))
    (hp : allPvalsGt (processCols lib (replaceSentinel missing cols0) 0 labels).profiles
      = false) :
    (statdesc lib cols0 missing labels).eq_var = some (lib.levene (xsOf missing cols0)) ∧
    (statdesc lib cols0 missing labels).events =
      (processCols lib (replaceSentinel missing cols0) 0 labels).events ++
        [Event.leveneRun] := by
  rw [statdesc_eq_var, statdesc_events, varianceTest_cond lib _ _ _ hcond]
  simp [hp]

/-- Witness for C7 at a concrete dataset with an entirely missing first
column. -/
theorem c7_per_column_rows_witness :
    (statdesc lib0 [[none, none], [some 1, some 2]] none []).profiles.length = 2 ∧
    (statdesc lib0 [[none, none], [some 1, some 2]] none []).profiles[0]? =
      some { m_sd := (none, none), ci := (none, none), min_max := (none, none),
             quartiles := (none, none, none), normality := (none, none) } :=
  ⟨(c7_per_column_rows lib0 [[none, none], [some 1, some 2]] none []).1,
   (c7_per_column_rows lib0 [[none, none], [some 1, some 2]] none []).2 0 (by decide)
     (by decide)⟩

/-- C3: `eq_var` is computed (not the NaN marker) exactly when at least two
CleanColumns are non-empty and at least two columns have CleanColumn length
greater than 2 (the guard `len(x) > 1 and min_len > 1` of source line 156);
otherwise it stays NaN and neither variance-equality test is invoked. -/
theorem c3_eq_var_guard (lib : StatsLib) (cols0 : List (List Val)) (missing : Option ℚ)
    (labels : List String) :
    ((statdesc lib cols0 missing labels).eq_var ≠ none ↔
      2 ≤ nonemptyCount (replaceSentinel missing cols0) ∧
      2 ≤ eligibleCount (replaceSentinel missing cols0)) ∧
    ((statdesc lib cols0 missing labels).eq_var = none →
      Event.bartlettRun ∉ (statdesc lib cols0 missing labels).events ∧
      Event.leveneRun ∉ (statdesc lib cols0 missing labels).events) := by
  have hxs := xsOf_length missing cols0
  constructor
  · constructor
    · intro h
      have hc := run_of_eq_var_ne_none lib cols0 missing labels h
      rw [hxs] at hc
      exact hc
    · intro h
      have hc : 1 < (xsOf missing cols0).length ∧
          1 < eligibleCount (replaceSentinel missing cols0) := by
        rw [hxs]; exact h
      by_cases hp : allPvalsGt
          (processCols lib (replaceSentinel missing cols0) 0 labels).profiles = true
      · rw [(statdesc_bartlett_case lib cols0 missing labels hc hp).1]
        simp
      · rw [(statdesc_levene_case lib cols0 missing labels hc
          (Bool.eq_false_iff.mpr hp)).1]
        simp
  · intro hnone
    have hc : ¬ (1 < (xsOf missing cols0).length ∧
        1 < eligibleCount (replaceSentinel missing cols0)) := by
      intro hc
      by_cases hp : allPvalsGt
          (processCols lib (replaceSentinel missing cols0) 0 labels).profiles = true
      · rw [(statdesc_bartlett_case lib cols0 missing labels hc hp).1] at hnone
        cases hnone
      · rw [(statdesc_levene_case lib cols0 missing labels hc
          (Bool.eq_false_iff.mpr hp)).1] at hnone
        cases hnone
    rw [statdesc_events, varianceTest_not_cond lib _ _ _ hc]
    simpa using processCols_no_test_events lib (replaceSentinel missing cols0) 0 labels

/-- Witness for C3: a dataset with two complete three-value columns passes
the guard, so `eq_var` is computed. -/
theorem c3_eq_var_guard_witness :
    (statdesc lib0 [[some 1, some 2, some 3], [some 4, some 5, some 6]] none
      []).eq_var ≠ none :=
  (c3_eq_var_guard lib0 [[some 1, some 2, some 3], [some 4, some 5, some 6]] none
    []).1.mpr (by decide)

/-- C2: whenever the equality-of-variances test runs, Bartlett's test is the
one invoked exactly when every column's stored Shapiro-Wilk p-value compares
greater than 0.05 (`np.all(normality[:, 1] > .05)`, source line 162, where a
NaN p-value fails the comparison), and otherwise Levene's test with
`center='median'` is invoked, each applied to the non-empty clean columns. -/
theorem c2_test_selection (lib : StatsLib) (cols0 : List (List Val)) (missing : Option ℚ)
    (labels : List String)
    (hrun : (statdesc lib cols0 missing labels).eq_var ≠ none) :
    (Event.bartlettRun ∈ (statdesc lib cols0 missing labels).events ↔
      allPvalsGt (statdesc lib cols0 missing labels).profiles = true) ∧
    (Event.leveneRun ∈ (statdesc lib cols0 missing labels).events ↔
      allPvalsGt (statdesc lib cols0 missing labels).profiles = false) ∧
    (allPvalsGt (statdesc lib cols0 missing labels).profiles = true →
      (statdesc lib cols0 missing labels).eq_var =
        some (lib.bartlett (xsOf missing cols0))) ∧
    (allPvalsGt (statdesc lib cols0 missing labels).profiles = false →
      (statdesc lib cols0 missing labels).eq_var =
        some (lib.levene (xsOf missing cols0))) := by
  have hcond := run_of_eq_var_ne_none lib cols0 missing labels hrun
  have hskip := processCols_no_test_events lib (replaceSentinel missing cols0) 0 labels
  rw [statdesc_profiles_raw]
  by_cases hp : allPvalsGt
      (processCols lib (replaceSentinel missing cols0) 0 labels).profiles = true
  · obtain ⟨hv, he⟩ := statdesc_bartlett_case lib cols0 missing labels hcond hp
    rw [hv, he, hp]
    refine ⟨by simp, ?_, fun _ => rfl, fun hfalse => by simp at hfalse⟩
    simp only [List.mem_append, List.mem_singleton]
    constructor
    · rintro (hmem | hbad)
      · exact absurd hmem hskip.2
      · cases hbad
    · intro hbad
      cases hbad
  · have hp' : allPvalsGt
        (processCols lib (replaceSentinel missing cols0) 0 labels).profiles = false :=
      Bool.eq_false_iff.mpr hp
    obtain ⟨hv, he⟩ := statdesc_levene_case lib cols0 missing labels hcond hp'
    rw [hv, he, hp']
    refine ⟨?_, by simp, fun htrue => absurd htrue Bool.false_ne_true, fun _ => rfl⟩
    simp only [List.mem_append, List.mem_singleton]
    constructor
    · rintro (hmem | hbad)
      · exact absurd hmem hskip.1
      · cases hbad
    · intro hbad
      cases hbad

lemma getD_mem_of_lt {α : Type} (l : List α) (i : ℕ) (d : α) (hi : i < l.length) :
    l.getD i d ∈ l := by
  rw [List.getD_eq_getElem?_getD]
  cases hx : l[i]? with
  | none =>
    rw [List.getElem?_eq_none_iff] at hx
    omega
  | some a =>
    have := List.getElem?_mem hx
    simpa using this

lemma allPvalsGt_false_of_short (lib : StatsLib) (cols : List (List Val))
    (labels : List String) (i : ℕ) (hi : i < cols.length)
    (hshort : (cleanColumn (cols.getD i [])).length ≤ 2) :
    allPvalsGt (processCols lib cols 0 labels).profiles = false := by
  rw [allPvalsGt, processCols_profiles]
  set col := cols.getD i [] with hcol
  have hmem : col ∈ cols := getD_mem_of_lt cols i [] hi
  have hnone :
      (if cleanColumn col = [] then emptyProfile
       else summary lib (cleanColumn col)).normality.2 = none := by
    by_cases hc : cleanColumn col = []
    · simp [hc, emptyProfile]
    · have h2 : ¬ (2 < (cleanColumn col).length) := by omega
      simp [hc, summary, h2]
  rw [List.all_eq_false]
  refine ⟨none, ?_, by simp [nanGt]⟩
  rw [List.map_map]
  exact hnone ▸ List.mem_map_of_mem _ hmem

/-- C9: whenever the equality-of-variances test runs but some input column
has a CleanColumn of length at most 2 (so its stored Shapiro-Wilk p-value is
the NaN marker), `np.all(normality[:, 1] > .05)` is false because NaN never
compares greater than 0.05, so Levene's test is invoked and Bartlett's test
is unreachable. -/
theorem c9_nan_pval_forces_levene (lib : StatsLib) (cols0 : List (List Val))
    (missing : Option ℚ) (labels : List String)
    (hrun : (statdesc lib cols0 missing labels).eq_var ≠ none)
    (hshort : ∃ i, i < cols0.length ∧
      (cleanColumn ((replaceSentinel missing cols0).getD i [])).length ≤ 2) :
    Event.leveneRun ∈ (statdesc lib cols0 missing labels).events ∧
    Event.bartlettRun ∉ (statdesc lib cols0 missing labels).events ∧
    (statdesc lib cols0 missing labels).eq_var =
      some (lib.levene (xsOf missing cols0)) := by
  have hcond := run_of_eq_var_ne_none lib cols0 missing labels hrun
  obtain ⟨i, hi, hsh⟩ := hshort
  have hi' : i < (replaceSentinel missing cols0).length := by
    rw [replaceSentinel_length]; exact hi
  have hp' := allPvalsGt_false_of_short lib (replaceSentinel missing cols0) labels i hi' hsh
  obtain ⟨hv, he⟩ := statdesc_levene_case lib cols0 missing labels hcond hp'
  have hskip := processCols_no_test_events lib (replaceSentinel missing cols0) 0 labels
  refine ⟨?_, ?_, hv⟩
  · rw [he]
    simp
  · rw [he]
    simp only [List.mem_append, List.mem_singleton]
    rintro (hmem | hbad)
    · exact hskip.1 hmem
    · cases hbad

/-- Witness for C9: two complete four-value columns and one single-value
column; the test runs, the third column's p-value is NaN, and Levene's test
is the one invoked. -/
theorem c9_nan_pval_forces_levene_witness :
    Event.leveneRun ∈
      (statdesc lib0
        [[some 1, some 2, some 3, some 7], [some 4, some 5, some 6, some 0],
         [some 9, none, none, none]] none []).events :=
  (c9_nan_pval_forces_levene lib0
    [[some 1, some 2, some 3, some 7], [some 4, some 5, some 6, some 0],
     [some 9, none, none, none]] none [] (by decide) ⟨2, by decide, by decide⟩).1

/-- Witness for C2: with a library whose Shapiro-Wilk p-value is 1/2 on both
complete three-value columns, all p-values exceed 0.05 and Bartlett's test is
invoked. -/
theorem c2_test_selection_witness :
    Event.bartlettRun ∈
      (statdesc lib0 [[some 1, some 2, some 3], [some 4, some 5, some 6]] none
        []).events :=
  (c2_test_selection lib0 [[some 1, some 2, some 3], [some 4, some 5, some 6]] none []
    (by decide)).1.mpr (by decide)

lemma map_fixed_iff {α : Type} (f : α → α) :
    ∀ l : List α, l.map f = l ↔ ∀ x ∈ l, f x = x
  | [] => by simp
  | a :: r => by
    simp [List.cons.injEq, map_fixed_iff f r]

lemma replace_col_eq_self_iff (m : ℚ) (col : List Val) :
    col.map (fun v => if v = some m then none else v) = col ↔
      ∀ v ∈ col, v ≠ some m := by
  rw [map_fixed_iff]
  refine forall₂_congr fun v _ => ?_
  constructor
  · intro h hv
    rw [hv] at h
    simp at h
  · intro h
    rw [if_neg h]

lemma replaceSentinel_eq_self_iff (m : ℚ) (cols : List (List Val)) :
    replaceSentinel (some m) cols = cols ↔
      ∀ col ∈ cols, ∀ v ∈ col, v ≠ some m := by
  unfold replaceSentinel
  rw [map_fixed_iff]
  exact forall₂_congr fun col _ => replace_col_eq_self_iff m col

/-- C5 counterexample: with the numeric sentinel `1`, the caller's array
`[[1.0, 2.0]]` is mutated in place (entry `1.0` becomes NaN), so the claim
that the data array is unchanged after the call is false. -/
theorem c5_data_mutated_cex :
    (statdesc lib0 [[some 1, some 2]] (some 1) []).dataOut ≠ [[some 1, some 2]] := by
  decide

/-- C5 amended: with the default `'NaN'` missing specifier the dataset is
not modified and the only caller-visible mutation is the label synthesis;
but when a numeric (non-NaN) sentinel `m` is supplied, the sentinel
replacement `data[data == missing] = np.NaN` (source line 108) writes
through `np.asarray`'s alias of the caller's float array, so the caller's
data is unchanged precisely when no entry equals the sentinel. -/
theorem c5_sentinel_mutation (lib : StatsLib) (cols0 : List (List Val))
    (labels : List String) (m : ℚ) :
    (statdesc lib cols0 none labels).dataOut = cols0 ∧
    ((statdesc lib cols0 (some m) labels).dataOut = cols0 ↔
      ∀ col ∈ cols0, ∀ v ∈ col, v ≠ some m) := by
  refine ⟨rfl, ?_⟩
  rw [statdesc_dataOut]
  exact replaceSentinel_eq_self_iff m cols0

/-- Witness for C5 at concrete inputs: with the default specifier the data
is returned unchanged. -/
theorem c5_sentinel_mutation_witness :
    (statdesc lib0 [[some 1, some 2]] none []).dataOut = [[some 1, some 2]] :=
  (c5_sentinel_mutation lib0 [[some 1, some 2]] [] 1).1

/-- C4: on `[[nan, 1], [nan, 2]]` (column 1 all missing) with the default
label list, the skip notice for column 1 is emitted exactly once, its
profile row stays all-NaN, and the other column's statistics are fully
computed — but the call does not complete: label synthesis was skipped for
the missing column, so `labels` ends up with 1 entry for 2 columns and
`statprint` raises IndexError at `labels[1]` (source line 358), modelled by
`completes = false`.  The claim that the call is non-fatal and returns the
six aggregates is the documented intent; the crash is the code slip. -/
theorem c4_all_missing_column_fatal :
    ((statdesc lib0 [[none, none], [some 1, some 2]] none []).events.count
      (Event.skip 0) = 1) ∧
    ((statdesc lib0 [[none, none], [some 1, some 2]] none []).profiles[0]? =
      some { m_sd := (none, none), ci := (none, none), min_max := (none, none),
             quartiles := (none, none, none), normality := (none, none) }) ∧
    ((statdesc lib0 [[none, none], [some 1, some 2]] none []).profiles[1]? =
      some { m_sd := (some (3 / 2), some (1 / 2)),
             ci := (some (59 / 40), some (61 / 40)),
             min_max := (some 1, some 2),
             quartiles := (some (3 / 2), some (5 / 4), some (7 / 4)),
             normality := (none, none) }) ∧
    ((statdesc lib0 [[none, none], [some 1, some 2]] none []).eq_var = none) ∧
    ((statdesc lib0 [[none, none], [some 1, some 2]] none []).completes = false) := by
  decide

lemma labelUpdate_length_of_lt (labels : List String) (i : ℕ) (h : i < labels.length) :
    (labelUpdate labels i).length = labels.length := by
  unfold labelUpdate
  rw [if_pos h]
  by_cases he : labels.getD i ("") ≠ ("")
  · rw [if_pos he]
  · rw [if_neg he, List.length_set]

lemma labelUpdate_getElem?_ne (labels : List String) (i j : ℕ) (hi : i < labels.length)
    (hne : j ≠ i) : (labelUpdate labels i)[j]? = labels[j]? := by
  unfold labelUpdate
  rw [if_pos hi]
  by_cases he : labels.getD i ("") ≠ ("")
  · rw [if_pos he]
  · rw [if_neg he]
    exact List.getElem?_set_ne (Ne.symm hne)

lemma labelUpdate_getD_ne (labels : List String) (i j : ℕ) (hi : i < labels.length)
    (hne : j ≠ i) : (labelUpdate labels i).getD j ("") = labels.getD j ("") := by
  rw [List.getD_eq_getElem?_getD, List.getD_eq_getElem?_getD,
    labelUpdate_getElem?_ne labels i j hi hne]

lemma labelUpdate_getElem?_self_blank (labels : List String) (i : ℕ)
    (hi : i < labels.length) (hb : labels.getD i ("") = ("")) :
    (labelUpdate labels i)[i]? = some (toString (i + 1)) := by
  unfold labelUpdate
  rw [if_pos hi, if_neg (by simpa using hb)]
  exact List.getElem?_set_eq_of_lt _ hi

lemma labelUpdate_keep (labels : List String) (i : ℕ) (hi : i < labels.length)
    (hb : labels.getD i ("") ≠ ("")) : labelUpdate labels i = labels := by
  unfold labelUpdate
  rw [if_pos hi, if_pos hb]

lemma processCols_labels_covered (lib : StatsLib) :
    ∀ (cols : List (List Val)) (start : ℕ) (labels : List String),
      start + cols.length ≤ labels.length →
      ((processCols lib cols start labels).labels.length = labels.length ∧
       ∀ j : ℕ,
         (processCols lib cols start labels).labels[j]? =
           if start ≤ j ∧ j < start + cols.length ∧
              cleanColumn (cols.getD (j - start) []) ≠ [] ∧
              labels.getD j ("") = ("")
           then some (toString (j + 1))
           else labels[j]?)
  | [], start, labels => by
    intro _
    refine ⟨rfl, fun j => ?_⟩
    rw [if_neg]
    · rfl
    · rintro ⟨h1, h2, _⟩
      simp only [List.length_nil] at h2
      omega
  | col :: rest, start, labels => by
    intro h
    have hstart : start < labels.length := by
      simp only [List.length_cons] at h
      omega
    by_cases hc : cleanColumn col = []
    · have hres : (processCols lib (col :: rest) start labels).labels =
          (processCols lib rest (start + 1) labels).labels := by
        simp [processCols, hc]
      have hrec := processCols_labels_covered lib rest (start + 1) labels
        (by simp only [List.length_cons] at h; omega)
      rw [hres]
      refine ⟨hrec.1, fun j => ?_⟩
      rw [hrec.2 j]
      by_cases hj : j = start
      · subst hj
        rw [if_neg (by omega), if_neg]
        rintro ⟨_, _, hclean, _⟩
        simp at hclean
        exact hclean hc
      · refine if_congr ?_ rfl rfl
        constructor
        · rintro ⟨h1, h2, h3, h4⟩
          refine ⟨by omega, by simpa [Nat.add_right_comm] using by omega, ?_, h4⟩
          have hsub : j - start = (j - (start + 1)) + 1 := by omega
          rw [hsub]
          simpa using h3
        · rintro ⟨h1, h2, h3, h4⟩
          have h1' : start + 1 ≤ j := by omega
          refine ⟨h1', by simp only [List.length_cons] at h2; omega, ?_, h4⟩
          have hsub : j - start = (j - (start + 1)) + 1 := by omega
          rw [hsub] at h3
          simpa using h3
    · have hres : (processCols lib (col :: rest) start labels).labels =
          (processCols lib rest (start + 1) (labelUpdate labels start)).labels := by
        simp [processCols, hc]
      have hlen : (labelUpdate labels start).length = labels.length :=
        labelUpdate_length_of_lt labels start hstart
      have hrec := processCols_labels_covered lib rest (start + 1) (labelUpdate labels start)
        (by simp only [List.length_cons] at h; omega)
      rw [hres]
      refine ⟨hrec.1.trans hlen, fun j => ?_⟩
      rw [hrec.2 j]
      by_cases hj : j = start
      · subst hj
        rw [if_neg (by omega)]
        by_cases hb : labels.getD j ("") = ("")
        · rw [if_pos ⟨le_refl j, by simp, by simpa using hc, hb⟩]
          exact labelUpdate_getElem?_self_blank labels j hstart hb
        · rw [if_neg (by rintro ⟨_, _, _, h4⟩; exact hb h4)]
          rw [labelUpdate_keep labels j hstart hb]
      · have hgd := labelUpdate_getD_ne labels start j hstart hj
        have hge := labelUpdate_getElem?_ne labels start j hstart hj
        rw [hgd, hge]
        refine if_congr ?_ rfl rfl
        constructor
        · rintro ⟨h1, h2, h3, h4⟩
          refine ⟨by omega, by simp only [List.length_cons]; omega, ?_, h4⟩
          have hsub : j - start = (j - (start + 1)) + 1 := by omega
          rw [hsub]
          simpa using h3
        · rintro ⟨h1, h2, h3, h4⟩
          have h1' : start + 1 ≤ j := by omega
          refine ⟨h1', by simp only [List.length_cons] at h2; omega, ?_, h4⟩
          have hsub : j - start = (j - (start + 1)) + 1 := by omega
          rw [hsub] at h3
          simpa using h3

/-- C6 counterexample: on `[[nan, nan], [1, 2]]` with empty initial labels,
the all-missing column 0 is skipped before label handling (`continue` at
source line 128), so no entry `"1"` is written at position 0; the label
`"2"` for column 1 is appended at the list's end, which is position 0, not
position 1.  The final label list is `["2"]`, refuting both the
"including empty columns" part and the "at position i" part of the claim. -/
theorem c6_label_positions_cex :
    (statdesc lib0 [[none, none], [some 1, some 2]] none []).labelsOut =
      [("2" : String)] ∧
    (statdesc lib0 [[none, none], [some 1, some 2]] none []).labelsOut[0]? ≠
      some ("1" : String) ∧
    (statdesc lib0 [[none, none], [some 1, some 2]] none []).labelsOut[1]? = none := by
  decide

/-- C6 amended: label synthesis happens only for columns with a non-empty
CleanColumn (empty columns are skipped before the label handling).  When the
caller's label list covers every column, such a column `i` keeps its label
when it is non-empty (usable) and otherwise has position `i` overwritten
with `str(i+1)`; positions of skipped columns and positions with usable
labels are untouched, and the list length is unchanged.  (When the list is
shorter than the column count, synthesized labels are appended at the
current end of the list, which need not be position `i`.) -/
theorem c6_label_synthesis (lib : StatsLib) (cols0 : List (List Val))
    (missing : Option ℚ) (labels : List String)
    (h : cols0.length ≤ labels.length) :
    (statdesc lib cols0 missing labels).labelsOut.length = labels.length ∧
    ∀ i, i < cols0.length →
      (statdesc lib cols0 missing labels).labelsOut[i]? =
        (if cleanColumn ((replaceSentinel missing cols0).getD i []) ≠ [] ∧
            labels.getD i ("") = ("")
         then some (toString (i + 1)) else labels[i]?) := by
  rw [statdesc_labelsOut]
  have hlen : (replaceSentinel missing cols0).length = cols0.length :=
    replaceSentinel_length missing cols0
  have hmain := processCols_labels_covered lib (replaceSentinel missing cols0) 0 labels
    (by omega)
  refine ⟨hmain.1, fun i hi => ?_⟩
  rw [hmain.2 i]
  refine if_congr ?_ rfl rfl
  constructor
  · rintro ⟨_, _, h3, h4⟩
    exact ⟨by simpa using h3, h4⟩
  · rintro ⟨h3, h4⟩
    exact ⟨Nat.zero_le i, by simpa [hlen] using hi, by simpa using h3, h4⟩

/-- Witness for C6: with labels `["x", ""]`, column 0 (empty CleanColumn)
keeps `"x"`, and column 1 (non-empty CleanColumn, blank label) gets `"2"`
written at position 1. -/
theorem c6_label_synthesis_witness :
    (statdesc lib0 [[none], [some 1]] none [("x" : String), ("")]).labelsOut[1]? =
      some ("2" : String) := by
  have h := (c6_label_synthesis lib0 [[none], [some 1]] none [("x" : String), ("")]
    (by decide)).2 1 (by decide)
  rw [h]
  decide

lemma processCols_labels_len_le (lib : StatsLib) :
    ∀ (cols : List (List Val)) (i : ℕ) (labels : List String),
      (processCols lib cols i labels).labels.length ≤ labels.length + cols.length
  | [], _, labels => by simp [processCols]
  | col :: rest, i, labels => by
    by_cases hc : cleanColumn col = []
    · have hres : (processCols lib (col :: rest) i labels).labels =
          (processCols lib rest (i + 1) labels).labels := by
        simp [processCols, hc]
      have := processCols_labels_len_le lib rest (i + 1) labels
      rw [hres]
      simp only [List.length_cons]
      omega
    · have hres : (processCols lib (col :: rest) i labels).labels =
          (processCols lib rest (i + 1) (labelUpdate labels i)).labels := by
        simp [processCols, hc]
      have hlu : (labelUpdate labels i).length ≤ labels.length + 1 := by
        unfold labelUpdate
        by_cases hi : i < labels.length
        · rw [if_pos hi]
          by_cases he : labels.getD i ("") ≠ ("")
          · rw [if_pos he]
            omega
          · rw [if_neg he, List.length_set]
            omega
        · rw [if_neg hi]
          simp
      have := processCols_labels_len_le lib rest (i + 1) (labelUpdate labels i)
      rw [hres]
      simp only [List.length_cons]
      omega

/-- C10: the omitted `labels` argument denotes one shared mutable list: the
first call on two complete one-value columns leaves `["1", "2"]` in the
default list, the second call (on any dataset of at most two columns) starts
from that list and returns it unchanged — its entries are non-empty, hence
"usable", so no resynthesis happens — whereas a call starting from a fresh
empty default can end with at most one label per column.  The second call
therefore observes state left by the first. -/
theorem c10_default_labels_persist (lib : StatsLib) (d2 : List (List Val))
    (h : d2.length ≤ 2) :
    (twoCallsNoLabels lib [[some 0], [some 0]] d2).1.labelsOut =
      [("1" : String), ("2")] ∧
    (twoCallsNoLabels lib [[some 0], [some 0]] d2).2.labelsOut =
      [("1" : String), ("2")] ∧
    (statdesc lib d2 none []).labelsOut.length ≤ d2.length := by
  have h1 : (statdesc lib [[some 0], [some 0]] none []).labelsOut =
      [("1" : String), ("2")] := by
    rw [statdesc_labelsOut]
    simp only [replaceSentinel]
    rw [processCols]
    rw [if_neg (by decide), processCols]
    rw [if_neg (by decide), processCols]
    simp only [labelUpdate]
    refine Eq.trans ?_ (by decide :
      ([toString 1, toString 2] : List String) = [("1" : String), ("2")])
    simp [labelUpdate]
  have h2 : ∀ lab2 : List String, lab2 = [("1" : String), ("2")] →
      (statdesc lib d2 none lab2).labelsOut = [("1" : String), ("2")] := by
    rintro _ rfl
    rw [statdesc_labelsOut]
    have hcov := processCols_labels_covered lib (replaceSentinel none d2) 0
      [("1" : String), ("2")]
      (by simp only [replaceSentinel]; simpa using h)
    apply List.ext_getElem?
    intro j
    rw [hcov.2 j]
    rw [if_neg]
    rintro ⟨_, hj2, _, hblank⟩
    simp only [replaceSentinel] at hj2
    rcases j with _ | j
    · simp at hblank
    · rcases j with _ | j
      · simp at hblank
      · omega
  refine ⟨h1, ?_, ?_⟩
  · show (statdesc lib d2 none
      (statdesc lib [[some 0], [some 0]] none []).labelsOut).labelsOut = _
    exact h2 _ h1
  · rw [statdesc_labelsOut]
    have := processCols_labels_len_le lib (replaceSentinel none d2) 0 []
    simpa [replaceSentinel] using this

/-- Witness for C10: after the first no-labels call, a second no-labels call
on a single-column dataset still sees and returns both labels `["1", "2"]`
left by the first call. -/
theorem c10_default_labels_persist_witness :
    (twoCallsNoLabels lib0 [[some 0], [some 0]] [[some 5]]).2.labelsOut =
      [("1" : String), ("2")] :=
  (c10_default_labels_persist lib0 [[some 5]] (by decide)).2.1

/-- C1: the source computes the CI half-width with `stats.t._pdf(.975, n-1)`
(source line 189) — the probability density of Student's t evaluated at
0.975 — not the two-tailed critical value (the inverse CDF at 0.975) that
the claim and the docstring's 95%-CI reference prescribe.  First conjunct:
on the clean column `[0, 1]` (n = 2, df = 1) the embedded code multiplies
`sd/√n` by exactly `tPdf 0.975 1`.  Second conjunct: for df = 1, Student's
t is the standard Cauchy distribution, with density `1/(π(1+x²))` and CDF
`1/2 + arctan(x)/π`; the claim's multiplier `t` must satisfy `CDF t =
0.975`, but the CDF of the density value the code uses is below 0.975 (it
is below 3/4), so the code's multiplier is not the claimed critical value
and the computed interval differs from the claimed one. -/
theorem c1_ci_uses_density_not_quantile (lib : StatsLib) :
    (summary lib [(0 : ℚ), 1]).ci =
      (some (1 / 2 - lib.tPdf (975 / 1000) 1 * lib.sqrtQ (1 / 2) / lib.sqrtQ 2),
       some (1 / 2 + lib.tPdf (975 / 1000) 1 * lib.sqrtQ (1 / 2) / lib.sqrtQ 2)) ∧
    (1 / 2 : ℝ) + Real.arctan (1 / (Real.pi * (1 + (975 / 1000 : ℝ) ^ 2))) / Real.pi
      < 975 / 1000 := by
  constructor
  · simp only [summary, stdQ, ssd]
    norm_num
  · set y : ℝ := 1 / (Real.pi * (1 + (975 / 1000 : ℝ) ^ 2)) with hy
    have h3 : (3 : ℝ) < Real.pi := Real.pi_gt_three
    have hpi : (0 : ℝ) < Real.pi := by linarith
    have hden : (1 : ℝ) < Real.pi * (1 + (975 / 1000 : ℝ) ^ 2) := by nlinarith
    have hy1 : y < 1 := by
      rw [hy, div_lt_one (by linarith)]
      linarith
    have harc : Real.arctan y < Real.pi / 4 := by
      have hmono := Real.arctan_strictMono hy1
      rwa [Real.arctan_one] at hmono
    have hdiv : Real.arctan y / Real.pi < 1 / 4 := by
      rw [div_lt_iff₀ hpi]
      linarith
    linarith

/-- Witness for C1 at the concrete library instantiation `lib0`. -/
theorem c1_ci_uses_density_not_quantile_witness :
    (summary lib0 [(0 : ℚ), 1]).ci =
      (some (1 / 2 - lib0.tPdf (975 / 1000) 1 * lib0.sqrtQ (1 / 2) / lib0.sqrtQ 2),
       some (1 / 2 + lib0.tPdf (975 / 1000) 1 * lib0.sqrtQ (1 / 2) / lib0.sqrtQ 2)) ∧
    (1 / 2 : ℝ) + Real.arctan (1 / (Real.pi * (1 + (975 / 1000 : ℝ) ^ 2))) / Real.pi
      < 975 / 1000 :=
  c1_ci_uses_density_not_quantile lib0

/-- Witness for C8 at the concrete singleton column `[5]`. -/
theorem c8_singleton_column_witness :
    summary lib0 [(5 : ℚ)] =
      { m_sd := (some 5, none), ci := (none, none), min_max := (some 5, some 5),
        quartiles := (some 5, some 5, some 5), normality := (none, none) } :=
  c8_singleton_column lib0 5

end BMC
